import Mathlib

/-!
Shallow embedding of the contact aggregation and caching routine of
`src/lib/contacts.ts` (plus the caller-side search merge of
`src/components/MentionList.tsx`), and proofs about it.

Conventions of the embedding:
- Each awaited external effect (storage read/write, auth token, HTTP fetch,
  JSON parse) is an input to the embedded function, given as an
  `Except JsError _` or a `FetchResult _` value describing what that effect
  would have produced.  A thrown JS exception is `.error` / `.throw`.
- JS `Map` iteration order (insertion order, overwrite keeps the original
  slot) is modelled by association-style operations on a `List Contact`,
  keyed by the `email` field, which is exactly how the source uses its maps.
- JS string truthiness (the empty string is falsy in `a || b` chains and in
  `if (!email)` / `att.email && ...`) is modelled by `strTruthy`.
- `Date.now()` is modelled by a single `now` field of the environment.
-/

namespace Lanner

/-- The `Contact` interface of `contacts.ts`. -/
structure Contact where
  id : String
  name : String
  email : String
  photoUrl : Option String
  lastContacted : Option Nat
deriving DecidableEq, Repr

/-- A thrown JS exception, carried as its message. -/
abbrev JsError := String

/-- Constant `CACHE_DURATION = 24 * 60 * 60 * 1000` (24 hours in milliseconds). -/
def CACHE_DURATION : Nat := 24 * 60 * 60 * 1000

/-- The cache envelope `{ data, timestamp }` stored under `CACHE_KEY`. -/
structure ContactsCache where
  data : List Contact
  timestamp : Nat
deriving DecidableEq, Repr

/-- Model of `map.has(e)` for a JS `Map` keyed by email, represented as the list of
its values in insertion order (every stored value `c` satisfies
`c.email = key`). -/
def hasEmail (m : List Contact) (e : String) : Bool :=
  m.any fun d => d.email == e

/-- Model of `map.set(c.email, c)`: overwriting an existing key keeps its original
insertion slot, a new key is appended. -/
def mapSet (m : List Contact) (c : Contact) : List Contact :=
  if hasEmail m c.email then m.map fun d => if d.email == c.email then c else d
  else m ++ [c]

/-- Model of `if (!map.has(c.email)) map.set(c.email, c)`. -/
def insertIfAbsent (m : List Contact) (c : Contact) : List Contact :=
  if hasEmail m c.email then m else m ++ [c]

/-- The merge step of `fetchAllContacts` (contacts.ts lines 55-75): source 1
is recorded unconditionally, sources 2 and 3 only when the email is not
already present; `Array.from(map.values())` is the resulting list. -/
def mergeByPriority (s1 s2 s3 : List Contact) : List Contact :=
  let m1 := s1.foldl mapSet []
  let m2 := s2.foldl insertIfAbsent m1
  s3.foldl insertIfAbsent m2

/-- JS truthiness of an optional string: `undefined` and `""` are falsy. -/
def strTruthy : Option String → Option String
  | some s => if s = "" then none else some s
  | none => none

/-- Model of `xs?.[0]?.field`: first element's field, when the array and the field
are present. -/
def optHead (l : Option (List (Option String))) : Option String :=
  match l with
  | none => none
  | some xs => match xs.head? with
    | none => none
    | some f => f

/-- One entry of a People API response, reduced to the fields the code
reads: `resourceName`, `names[i].displayName`, `emailAddresses[i].value`,
`photos[i].url`.  An absent array is `none`; an element without the read
field is `some none` at that position. -/
structure PersonItem where
  resourceName : Option String
  names : Option (List (Option String))
  emailAddresses : Option (List (Option String))
  photos : Option (List (Option String))
deriving DecidableEq, Repr

/-- The per-entry mapping shared verbatim by `fetchPeople` and
`searchContacts`: `name = displayName || emailAddresses[0].value ||
"Unknown"`, `email = emailAddresses[0].value` (entry dropped via
`if (!email) return null` when absent or empty), `photoUrl = photos[0].url`,
`id = resourceName || email`. -/
def personToContact (item : PersonItem) : Option Contact :=
  let nameOpt := strTruthy (optHead item.names)
  let emailOpt := optHead item.emailAddresses
  let photoUrl := optHead item.photos
  let name := match nameOpt with
    | some n => n
    | none => match strTruthy emailOpt with
      | some e => e
      | none => "Unknown"
  match emailOpt with
  | none => none
  | some e =>
    if e = "" then none
    else some ⟨match strTruthy item.resourceName with
               | some r => r
               | none => e,
               name, e, photoUrl, none⟩

/-- The spec's shared mapping rule, written from its words: the record is
discarded when no email string exists; otherwise name is the display name,
else the email string; photo is the first photo URL, else absent; id is the
source resource identifier, else the email. -/
def specMapContact (item : PersonItem) : Option Contact :=
  match strTruthy (optHead item.emailAddresses) with
  | none => none
  | some e =>
    some ⟨match strTruthy item.resourceName with
          | some r => r
          | none => e,
          match strTruthy (optHead item.names) with
          | some n => n
          | none => e,
          e, optHead item.photos, none⟩

/-- Outcome of one `fetch` + `res.json()` round trip: a thrown exception
(network or parse), a non-ok HTTP status, or a parsed body. -/
inductive FetchResult (α : Type)
  | throw (e : JsError)
  | notOk
  | ok (data : α)
deriving DecidableEq, Repr

/-- Body of a People API list response: `data.connections` or
`data.otherContacts`, either possibly absent. -/
structure PeopleResponse where
  connections : Option (List PersonItem)
  otherContacts : Option (List PersonItem)
deriving DecidableEq, Repr

/-- Model of `fetchPeople(url, token, isOther)` (contacts.ts lines 169-200): any
thrown error or non-ok status or missing list field yields `[]`; otherwise
each item is mapped by the shared rule and `null` results are filtered. -/
def fetchPeople (res : FetchResult PeopleResponse) (isOther : Bool) : List Contact :=
  match res with
  | .throw _ => []
  | .notOk => []
  | .ok data =>
    let list := if isOther then data.otherContacts else data.connections
    match list with
    | none => []
    | some l => l.filterMap personToContact

/-- One entry of an event's `attendees` array, reduced to the read fields.
`self` and `resource` are `false` when the JSON omits them. -/
structure Attendee where
  email : Option String
  displayName : Option String
  self : Bool
  resource : Bool
deriving DecidableEq, Repr

/-- One item of the calendar events response. -/
structure EventItem where
  attendees : Option (List Attendee)
deriving DecidableEq, Repr

/-- Body of the calendar events response: `data.items`, possibly absent. -/
structure CalendarResponse where
  items : Option (List EventItem)
deriving DecidableEq, Repr

/-- Model of `e.split('@')[0]`: the part of `e` before its first `'@'` (the whole
string when it has none). -/
def localPart (e : String) : String :=
  String.mk (e.data.takeWhile fun ch => ch ≠ '@')

/-- The contact built from a passing attendee: `id = att.email`,
`name = att.displayName || att.email.split('@')[0]`, no photo. -/
def attendeeContact (att : Attendee) (e : String) : Contact :=
  ⟨e,
   match strTruthy att.displayName with
   | some n => n
   | none => localPart e,
   e, none, none⟩

/-- The inner attendee loop body: `if (att.email && !att.self &&
!att.resource)` then insert into the dedup map when the email is new. -/
def attendeeStep (m : List Contact) (att : Attendee) : List Contact :=
  match att.email with
  | none => m
  | some e =>
    if e ≠ "" ∧ att.self = false ∧ att.resource = false then
      insertIfAbsent m (attendeeContact att e)
    else m

/-- The event/attendee scan of `fetchRecentAttendees` (contacts.ts lines
144-161), given the parsed `items`. -/
def recentAttendeesFromItems (items : List EventItem) : List Contact :=
  items.foldl
    (fun m ev => match ev.attendees with
      | some atts => atts.foldl attendeeStep m
      | none => m)
    []

/-- Model of `fetchRecentAttendees` (contacts.ts lines 127-167): its own try/catch
absorbs a thrown fetch/parse error; non-ok status and a missing `items`
field yield `[]`. -/
def fetchRecentAttendees (res : FetchResult CalendarResponse) : List Contact :=
  match res with
  | .throw _ => []
  | .notOk => []
  | .ok data =>
    match data.items with
    | none => []
    | some items => recentAttendeesFromItems items

/-- Model of `fetchAllContacts(token)` (contacts.ts lines 47-76): the three source
fetches settle independently (each absorbs its own failure) and the results
are merged with fixed priority. -/
def fetchAllContacts (connF otherF : FetchResult PeopleResponse)
    (calF : FetchResult CalendarResponse) : List Contact :=
  mergeByPriority (fetchPeople connF false) (fetchPeople otherF true)
    (fetchRecentAttendees calF)

/-- Environment of one `getContacts` call: what each awaited effect would
produce.  `cacheRead` is the `chrome.storage.local.get` outcome (note: it is
awaited outside the try block), `tokenRes` the `getAuthToken(false)`
outcome, `cacheWrite` the `chrome.storage.local.set` outcome. -/
structure GetEnv where
  now : Nat
  cacheRead : Except JsError (Option ContactsCache)
  tokenRes : Except JsError String
  connFetch : FetchResult PeopleResponse
  otherFetch : FetchResult PeopleResponse
  calFetch : FetchResult CalendarResponse
  cacheWrite : Except JsError Unit
deriving Repr

/-- Observable outcome of a `getContacts` call: the returned list, whether
a credential was requested, whether the source fetches were issued, and the
envelope written to the cache (when one was). -/
structure GetOutcome where
  result : List Contact
  tokenRequested : Bool
  fetchesIssued : Bool
  cacheWritten : Option ContactsCache
deriving DecidableEq, Repr

/-- Model of `getContacts(forceRefresh)` (contacts.ts lines 19-45).  The cache read
and freshness test run before the try block, so a storage-read failure
propagates as `.error`; everything from `getAuthToken` on is inside the
try/catch, whose catch returns `[]`. -/
def getContactsE (forceRefresh : Bool) (env : GetEnv) : Except JsError GetOutcome :=
  let cacheStep : Except JsError (Option (List Contact)) :=
    if forceRefresh then .ok none
    else match env.cacheRead with
      | .error e => .error e
      | .ok none => .ok none
      | .ok (some cd) =>
        if env.now - cd.timestamp < CACHE_DURATION then .ok (some cd.data)
        else .ok none
  match cacheStep with
  | .error e => .error e
  | .ok (some data) => .ok ⟨data, false, false, none⟩
  | .ok none =>
    .ok (match env.tokenRes with
      | .error _ => ⟨[], true, false, none⟩
      | .ok _ =>
        let contacts := fetchAllContacts env.connFetch env.otherFetch env.calFetch
        match env.cacheWrite with
        | .error _ => ⟨[], true, true, none⟩
        | .ok _ => ⟨contacts, true, true, some ⟨contacts, env.now⟩⟩)

/-- One entry of the otherContacts search response (`result.person`). -/
structure SearchResponse where
  results : Option (List PersonItem)
deriving DecidableEq, Repr

/-- Environment of one `searchContacts` call. -/
structure SearchEnv where
  tokenRes : Except JsError String
  searchFetch : FetchResult SearchResponse
deriving Repr

/-- Observable outcome of a `searchContacts` call. -/
structure SearchOutcome where
  result : List Contact
  tokenRequested : Bool
  fetchIssued : Bool
deriving DecidableEq, Repr

/-- Model of `searchContacts(query)` (contacts.ts lines 78-113): the
`!query || query.length < 2` guard returns `[]` before any effect; the rest
is inside try/catch and maps each `result.person` by the shared rule. -/
def searchContactsE (query : String) (env : SearchEnv) : Except JsError SearchOutcome :=
  if query = "" ∨ query.length < 2 then .ok ⟨[], false, false⟩
  else
    .ok (match env.tokenRes with
      | .error _ => ⟨[], true, false⟩
      | .ok _ =>
        match env.searchFetch with
        | .throw _ => ⟨[], true, true⟩
        | .notOk => ⟨[], true, true⟩
        | .ok data =>
          match data.results with
          | none => ⟨[], true, true⟩
          | some rs => ⟨rs.filterMap personToContact, true, true⟩)

/-- The caller-side merge of search results in `MentionList.tsx` lines
374-394: `combined = [...prev]`, then each result is pushed only when no
entry of `combined` already has its email. -/
def mergeSearchResults (prev results : List Contact) : List Contact :=
  results.foldl insertIfAbsent prev

/-- A People-source fetch "fails" when it throws, gets a non-ok status, or
the expected list field is missing from the body. -/
def peopleFetchFailed : FetchResult PeopleResponse → Bool → Prop
  | .throw _, _ => True
  | .notOk, _ => True
  | .ok d, false => d.connections = none
  | .ok d, true => d.otherContacts = none

/-- The calendar fetch "fails" when it throws, gets a non-ok status, or the
`items` field is missing from the body. -/
def calendarFetchFailed : FetchResult CalendarResponse → Prop
  | .throw _ => True
  | .notOk => True
  | .ok d => d.items = none

end Lanner

namespace Lanner

theorem hasEmail_iff (m : List Contact) (e : String) :
    hasEmail m e = true ↔ e ∈ m.map Contact.email := by
  simp [hasEmail, List.any_eq_true, List.mem_map]

theorem emails_mapSet (m : List Contact) (c : Contact) :
    (mapSet m c).map Contact.email =
      if hasEmail m c.email then m.map Contact.email
      else m.map Contact.email ++ [c.email] := by
  unfold mapSet
  by_cases h : hasEmail m c.email
  · simp only [h, if_true, List.map_map]
    apply List.map_congr_left
    intro d _
    by_cases hde : d.email = c.email
    · simp [Function.comp, hde]
    · simp [Function.comp, hde]
  · simp [h]

theorem mem_emails_mapSet (m : List Contact) (c : Contact) (e : String) :
    e ∈ (mapSet m c).map Contact.email ↔ e ∈ m.map Contact.email ∨ e = c.email := by
  rw [emails_mapSet]
  by_cases h : hasEmail m c.email
  · simp only [h, if_true]
    constructor
    · exact fun h1 => Or.inl h1
    · rintro (h1 | rfl)
      · exact h1
      · exact (hasEmail_iff m c.email).1 h
  · simp [h]

theorem nodup_emails_mapSet (m : List Contact) (c : Contact)
    (h : (m.map Contact.email).Nodup) : ((mapSet m c).map Contact.email).Nodup := by
  rw [emails_mapSet]
  by_cases hh : hasEmail m c.email
  · simpa [hh] using h
  · have hc : c.email ∉ m.map Contact.email := fun hmem =>
      hh ((hasEmail_iff m c.email).2 hmem)
    simp [hh, List.nodup_append, h, hc]

theorem emails_insertIfAbsent (m : List Contact) (c : Contact) :
    (insertIfAbsent m c).map Contact.email =
      if hasEmail m c.email then m.map Contact.email
      else m.map Contact.email ++ [c.email] := by
  unfold insertIfAbsent
  by_cases h : hasEmail m c.email <;> simp [h]

theorem mem_emails_insertIfAbsent (m : List Contact) (c : Contact) (e : String) :
    e ∈ (insertIfAbsent m c).map Contact.email ↔
      e ∈ m.map Contact.email ∨ e = c.email := by
  rw [emails_insertIfAbsent]
  by_cases h : hasEmail m c.email
  · simp only [h, if_true]
    constructor
    · exact fun h1 => Or.inl h1
    · rintro (h1 | rfl)
      · exact h1
      · exact (hasEmail_iff m c.email).1 h
  · simp [h]

theorem nodup_emails_insertIfAbsent (m : List Contact) (c : Contact)
    (h : (m.map Contact.email).Nodup) :
    ((insertIfAbsent m c).map Contact.email).Nodup := by
  rw [emails_insertIfAbsent]
  by_cases hh : hasEmail m c.email
  · simpa [hh] using h
  · have hc : c.email ∉ m.map Contact.email := fun hmem =>
      hh ((hasEmail_iff m c.email).2 hmem)
    simp [hh, List.nodup_append, h, hc]

theorem nodup_emails_foldl_mapSet (l : List Contact) :
    ∀ m : List Contact, (m.map Contact.email).Nodup →
      ((l.foldl mapSet m).map Contact.email).Nodup := by
  induction l with
  | nil => intro m h; exact h
  | cons c t ih => intro m h; exact ih (mapSet m c) (nodup_emails_mapSet m c h)

theorem nodup_emails_foldl_insertIfAbsent (l : List Contact) :
    ∀ m : List Contact, (m.map Contact.email).Nodup →
      ((l.foldl insertIfAbsent m).map Contact.email).Nodup := by
  induction l with
  | nil => intro m h; exact h
  | cons c t ih => intro m h; exact ih (insertIfAbsent m c) (nodup_emails_insertIfAbsent m c h)

theorem mem_emails_foldl_mapSet (l : List Contact) :
    ∀ (m : List Contact) (e : String),
      e ∈ (l.foldl mapSet m).map Contact.email ↔
        e ∈ m.map Contact.email ∨ e ∈ l.map Contact.email := by
  induction l with
  | nil => intro m e; simp
  | cons c t ih =>
    intro m e
    rw [List.foldl_cons, ih (mapSet m c) e, mem_emails_mapSet]
    simp only [List.map_cons, List.mem_cons]
    tauto

theorem mem_emails_foldl_insertIfAbsent (l : List Contact) :
    ∀ (m : List Contact) (e : String),
      e ∈ (l.foldl insertIfAbsent m).map Contact.email ↔
        e ∈ m.map Contact.email ∨ e ∈ l.map Contact.email := by
  induction l with
  | nil => intro m e; simp
  | cons c t ih =>
    intro m e
    rw [List.foldl_cons, ih (insertIfAbsent m c) e, mem_emails_insertIfAbsent]
    simp only [List.map_cons, List.mem_cons]
    tauto

/-- C2: in the list produced by the merge of `fetchAllContacts`, no two
entries share an email address, for every input triple of source lists. -/
theorem merged_contact_emails_nodup (s1 s2 s3 : List Contact) :
    ((mergeByPriority s1 s2 s3).map Contact.email).Nodup := by
  unfold mergeByPriority
  exact nodup_emails_foldl_insertIfAbsent s3 _
    (nodup_emails_foldl_insertIfAbsent s2 _
      (nodup_emails_foldl_mapSet s1 [] (by simp)))

end Lanner

namespace Lanner

theorem foldl_mapSet_nodup_disjoint (l : List Contact) :
    ∀ m : List Contact, (l.map Contact.email).Nodup →
      (∀ e ∈ l.map Contact.email, e ∉ m.map Contact.email) →
      l.foldl mapSet m = m ++ l := by
  induction l with
  | nil => intro m _ _; simp
  | cons c t ih =>
    intro m hnd hdisj
    have hc : c.email ∉ m.map Contact.email := hdisj c.email (by simp)
    have hhas : hasEmail m c.email = false := by
      cases h : hasEmail m c.email
      · rfl
      · exact absurd ((hasEmail_iff m c.email).1 h) hc
    rw [List.map_cons, List.nodup_cons] at hnd
    rw [List.foldl_cons, show mapSet m c = m ++ [c] from by simp [mapSet, hhas]]
    rw [ih (m ++ [c]) hnd.2]
    · simp
    · intro e he
      have hem : e ∉ m.map Contact.email := hdisj e (by simp [he])
      have hec : e ≠ c.email := by
        intro h
        exact hnd.1 (h ▸ he)
      simp [List.mem_append, hem, hec]

theorem foldl_insertIfAbsent_eq_append (l : List Contact) :
    ∀ m : List Contact, ∃ r, l.foldl insertIfAbsent m = m ++ r := by
  induction l with
  | nil => intro m; exact ⟨[], by simp⟩
  | cons c t ih =>
    intro m
    have hstep : ∃ r0, insertIfAbsent m c = m ++ r0 := by
      unfold insertIfAbsent
      split
      · exact ⟨[], by simp⟩
      · exact ⟨[c], rfl⟩
    rcases hstep with ⟨r0, hr0⟩
    rcases ih (insertIfAbsent m c) with ⟨r, hr⟩
    refine ⟨r0 ++ r, ?_⟩
    rw [List.foldl_cons, hr, hr0, List.append_assoc]

theorem find?_email_self (l : List Contact) (c : Contact) :
    (l.map Contact.email).Nodup → c ∈ l →
      l.find? (fun d => d.email == c.email) = some c := by
  induction l with
  | nil => intro _ h; simp at h
  | cons a t ih =>
    intro hnd hc
    rw [List.map_cons, List.nodup_cons] at hnd
    by_cases h : a.email = c.email
    · have hca : c = a := by
        rcases List.mem_cons.mp hc with rfl | hmem
        · rfl
        · exact absurd (h ▸ List.mem_map.mpr ⟨c, hmem, rfl⟩) hnd.1
      subst hca
      simp [List.find?_cons]
    · have hct : c ∈ t := by
        rcases List.mem_cons.mp hc with rfl | hmem
        · exact absurd rfl h
        · exact hmem
      have hne : (a.email == c.email) = false := by
        simp [h]
      simp only [List.find?_cons, hne]
      exact ih hnd.2 hct

theorem drop_foldl_insertIfAbsent (l : List Contact) :
    ∀ m : List Contact, ∀ d ∈ (l.foldl insertIfAbsent m).drop m.length,
      d ∈ l ∧ d.email ∉ m.map Contact.email := by
  induction l with
  | nil => intro m d hd; simp at hd
  | cons c t ih =>
    intro m d hd
    rw [List.foldl_cons] at hd
    cases h : hasEmail m c.email
    · rw [show insertIfAbsent m c = m ++ [c] from by simp [insertIfAbsent, h]] at hd
      rcases foldl_insertIfAbsent_eq_append t (m ++ [c]) with ⟨r, hr⟩
      have hdrop : ((m ++ [c]) ++ r).drop m.length = [c] ++ r := by
        rw [List.append_assoc]
        simp
      rw [hr, hdrop] at hd
      have hcm : c.email ∉ m.map Contact.email := fun hmem =>
        by simp [(hasEmail_iff m c.email).2 hmem] at h
      rcases List.mem_append.mp hd with h1 | h2
      · have hdc := List.mem_singleton.mp h1
        rw [hdc]
        exact ⟨List.mem_cons_self c t, hcm⟩
      · have hd2 : d ∈ (t.foldl insertIfAbsent (m ++ [c])).drop (m ++ [c]).length := by
          rw [hr]
          simpa using h2
        rcases ih (m ++ [c]) d hd2 with ⟨h3, h4⟩
        refine ⟨List.mem_cons_of_mem c h3, fun hmem => h4 ?_⟩
        rw [List.map_append]
        exact List.mem_append_left _ hmem
    · rw [show insertIfAbsent m c = m from by simp [insertIfAbsent, h]] at hd
      rcases ih m d hd with ⟨h1, h2⟩
      exact ⟨List.mem_cons_of_mem c h1, h2⟩

theorem mem_foldl_insertIfAbsent (l m : List Contact) (d : Contact)
    (hd : d ∈ l.foldl insertIfAbsent m) :
    d ∈ m ∨ (d ∈ l ∧ d.email ∉ m.map Contact.email) := by
  rcases foldl_insertIfAbsent_eq_append l m with ⟨r, hr⟩
  rw [hr] at hd
  rcases List.mem_append.mp hd with h1 | h2
  · exact Or.inl h1
  · right
    apply drop_foldl_insertIfAbsent l m d
    rw [hr]
    simpa using h2

theorem mem_foldl_mapSet (l : List Contact) :
    ∀ (m : List Contact) (d : Contact), d ∈ l.foldl mapSet m → d ∈ m ∨ d ∈ l := by
  induction l with
  | nil => intro m d h; exact Or.inl h
  | cons c t ih =>
    intro m d h
    rw [List.foldl_cons] at h
    rcases ih (mapSet m c) d h with h1 | h2
    · unfold mapSet at h1
      split at h1
      · rcases List.mem_map.mp h1 with ⟨a, ha, rfl⟩
        by_cases hac : a.email = c.email
        · have htrue : (a.email == c.email) = true := by simp [hac]
          simp only [htrue, if_true]
          exact Or.inr (List.mem_cons_self c t)
        · have : (a.email == c.email) = false := by simp [hac]
          simp only [this, Bool.false_eq_true, if_false]
          exact Or.inl ha
      · rcases List.mem_append.mp h1 with h | h
        · exact Or.inl h
        · have hdc := List.mem_singleton.mp h
          rw [hdc]
          exact Or.inr (List.mem_cons_self c t)
    · exact Or.inr (List.mem_cons_of_mem c h2)

/-- C1: in the merged list of `fetchAllContacts`, source priority is fixed
and the first writer wins: every source-1 contact is recorded (under the
unambiguous case of source-1 emails being distinct, the entry found for its
email is exactly that contact, so when source 2 claims the same email with a
different name, source 1's version survives); every merged entry comes from
source 1, or from source 2 with an email source 1 did not claim, or from
source 3 with an email neither earlier source claimed; and the merged email
set is exactly the union of the three sources' email sets. -/
theorem merge_fixed_priority_first_writer_wins
    (s1 s2 s3 : List Contact) (c : Contact)
    (hnd : (s1.map Contact.email).Nodup) (hc : c ∈ s1) :
    (mergeByPriority s1 s2 s3).find? (fun d => d.email == c.email) = some c ∧
    (∀ d ∈ mergeByPriority s1 s2 s3,
      d ∈ s1 ∨ (d ∈ s2 ∧ d.email ∉ s1.map Contact.email) ∨
      (d ∈ s3 ∧ d.email ∉ s1.map Contact.email ∧ d.email ∉ s2.map Contact.email)) ∧
    (∀ e, e ∈ (mergeByPriority s1 s2 s3).map Contact.email ↔
      (e ∈ s1.map Contact.email ∨ e ∈ s2.map Contact.email ∨ e ∈ s3.map Contact.email)) := by
  have hm1 : s1.foldl mapSet [] = s1 := by
    have h := foldl_mapSet_nodup_disjoint s1 [] hnd (by intro e _; simp)
    simpa using h
  refine ⟨?_, ?_, ?_⟩
  · simp only [mergeByPriority]
    rcases foldl_insertIfAbsent_eq_append s2 (s1.foldl mapSet []) with ⟨r2, hr2⟩
    rcases foldl_insertIfAbsent_eq_append s3 (s2.foldl insertIfAbsent (s1.foldl mapSet [])) with ⟨r3, hr3⟩
    rw [hr3, hr2, hm1, List.append_assoc, List.find?_append, find?_email_self s1 c hnd hc]
    rfl
  · intro d hd
    simp only [mergeByPriority] at hd
    rcases mem_foldl_insertIfAbsent s3 _ d hd with h3 | ⟨h3, h3e⟩
    · rcases mem_foldl_insertIfAbsent s2 _ d h3 with h2 | ⟨h2, h2e⟩
      · left
        have h1 := mem_foldl_mapSet s1 [] d h2
        simpa using h1
      · right; left
        refine ⟨h2, fun hmem => h2e ?_⟩
        exact (mem_emails_foldl_mapSet s1 [] d.email).mpr (Or.inr hmem)
    · right; right
      refine ⟨h3, fun hmem => h3e ?_, fun hmem => h3e ?_⟩
      · exact (mem_emails_foldl_insertIfAbsent s2 _ d.email).mpr
          (Or.inl ((mem_emails_foldl_mapSet s1 [] d.email).mpr (Or.inr hmem)))
      · exact (mem_emails_foldl_insertIfAbsent s2 _ d.email).mpr (Or.inr hmem)
  · intro e
    simp only [mergeByPriority]
    rw [mem_emails_foldl_insertIfAbsent, mem_emails_foldl_insertIfAbsent,
      mem_emails_foldl_mapSet]
    simp only [List.map_nil, List.not_mem_nil, false_or, or_assoc]

/-- Witness for C1 at concrete sources: source 1 and source 2 both claim
`a@x.com` with different names; source 1's version survives. -/
theorem merge_fixed_priority_first_writer_wins_witness :
    (([⟨"1", "Alice", "a@x.com", none, none⟩].map Contact.email).Nodup ∧
      (⟨"1", "Alice", "a@x.com", none, none⟩ : Contact) ∈
        [(⟨"1", "Alice", "a@x.com", none, none⟩ : Contact)]) ∧
    ((mergeByPriority [⟨"1", "Alice", "a@x.com", none, none⟩]
        [⟨"2", "Ally", "a@x.com", none, none⟩, ⟨"3", "Bob", "b@x.com", none, none⟩]
        []).find?
        (fun d => d.email == (⟨"1", "Alice", "a@x.com", none, none⟩ : Contact).email) =
      some ⟨"1", "Alice", "a@x.com", none, none⟩ ∧
    (∀ d ∈ mergeByPriority [⟨"1", "Alice", "a@x.com", none, none⟩]
        [⟨"2", "Ally", "a@x.com", none, none⟩, ⟨"3", "Bob", "b@x.com", none, none⟩] [],
      d ∈ [(⟨"1", "Alice", "a@x.com", none, none⟩ : Contact)] ∨
      (d ∈ [(⟨"2", "Ally", "a@x.com", none, none⟩ : Contact),
            ⟨"3", "Bob", "b@x.com", none, none⟩] ∧
        d.email ∉ [(⟨"1", "Alice", "a@x.com", none, none⟩ : Contact)].map Contact.email) ∨
      (d ∈ ([] : List Contact) ∧
        d.email ∉ [(⟨"1", "Alice", "a@x.com", none, none⟩ : Contact)].map Contact.email ∧
        d.email ∉ [(⟨"2", "Ally", "a@x.com", none, none⟩ : Contact),
                   ⟨"3", "Bob", "b@x.com", none, none⟩].map Contact.email)) ∧
    (∀ e, e ∈ (mergeByPriority [⟨"1", "Alice", "a@x.com", none, none⟩]
        [⟨"2", "Ally", "a@x.com", none, none⟩, ⟨"3", "Bob", "b@x.com", none, none⟩]
        []).map Contact.email ↔
      (e ∈ [(⟨"1", "Alice", "a@x.com", none, none⟩ : Contact)].map Contact.email ∨
        e ∈ [(⟨"2", "Ally", "a@x.com", none, none⟩ : Contact),
             ⟨"3", "Bob", "b@x.com", none, none⟩].map Contact.email ∨
        e ∈ ([] : List Contact).map Contact.email))) :=
  ⟨⟨by decide, by decide⟩,
    merge_fixed_priority_first_writer_wins
      [⟨"1", "Alice", "a@x.com", none, none⟩]
      [⟨"2", "Ally", "a@x.com", none, none⟩, ⟨"3", "Bob", "b@x.com", none, none⟩]
      [] ⟨"1", "Alice", "a@x.com", none, none⟩ (by decide) (by decide)⟩

end Lanner

namespace Lanner

theorem fetchPeople_eq_nil (f : FetchResult PeopleResponse) (isOther : Bool)
    (h : peopleFetchFailed f isOther) : fetchPeople f isOther = [] := by
  cases f with
  | throw e => rfl
  | notOk => rfl
  | ok d =>
    cases isOther
    · have h' : d.connections = none := h
      simp [fetchPeople, h']
    · have h' : d.otherContacts = none := h
      simp [fetchPeople, h']

theorem fetchRecentAttendees_eq_nil (f : FetchResult CalendarResponse)
    (h : calendarFetchFailed f) : fetchRecentAttendees f = [] := by
  cases f with
  | throw e => rfl
  | notOk => rfl
  | ok d =>
    have h' : d.items = none := h
    simp [fetchRecentAttendees, h']

/-- C3: with `forceRefresh = false` and a cache envelope younger than 24
hours, `getContacts` returns the cached list with no credential request, no
fetches and no cache write; with `forceRefresh = true`, or the envelope
absent, or its age at least 24 hours, it runs the full refresh and (when the
credential and the storage write succeed) overwrites the cache with the
merged list stamped `now` before returning that list. -/
theorem getContacts_cache_ttl_behavior (env : GetEnv) :
    (∀ cd, env.cacheRead = .ok (some cd) → env.now - cd.timestamp < CACHE_DURATION →
      getContactsE false env = .ok ⟨cd.data, false, false, none⟩) ∧
    (∀ tok, env.tokenRes = .ok tok → env.cacheWrite = .ok () →
      getContactsE true env =
        .ok ⟨fetchAllContacts env.connFetch env.otherFetch env.calFetch, true, true,
          some ⟨fetchAllContacts env.connFetch env.otherFetch env.calFetch, env.now⟩⟩) ∧
    (∀ cd tok, env.cacheRead = .ok (some cd) →
      ¬ env.now - cd.timestamp < CACHE_DURATION →
      env.tokenRes = .ok tok → env.cacheWrite = .ok () →
      getContactsE false env =
        .ok ⟨fetchAllContacts env.connFetch env.otherFetch env.calFetch, true, true,
          some ⟨fetchAllContacts env.connFetch env.otherFetch env.calFetch, env.now⟩⟩) ∧
    (∀ tok, env.cacheRead = .ok none → env.tokenRes = .ok tok → env.cacheWrite = .ok () →
      getContactsE false env =
        .ok ⟨fetchAllContacts env.connFetch env.otherFetch env.calFetch, true, true,
          some ⟨fetchAllContacts env.connFetch env.otherFetch env.calFetch, env.now⟩⟩) := by
  refine ⟨?_, ?_, ?_, ?_⟩
  · intro cd h1 h2
    simp [getContactsE, h1, h2]
  · intro tok h1 h2
    simp [getContactsE, h1, h2]
  · intro cd tok h1 h2 h3 h4
    simp [getContactsE, h1, h2, h3, h4]
  · intro tok h1 h2 h3
    simp [getContactsE, h1, h2, h3]

/-- Witness for C3: a 1-hour-old envelope is served from cache; a
25-hour-old envelope and a forced refresh both run the network path and
re-stamp the cache. -/
theorem getContacts_cache_ttl_behavior_witness :
    getContactsE false
        ⟨90000000, .ok (some ⟨[⟨"1", "A", "a@x", none, none⟩], 86400000⟩), .ok "t",
          .notOk, .notOk, .notOk, .ok ()⟩ =
      .ok ⟨[⟨"1", "A", "a@x", none, none⟩], false, false, none⟩ ∧
    getContactsE true ⟨90000000, .ok none, .ok "t", .notOk, .notOk, .notOk, .ok ()⟩ =
      .ok ⟨[], true, true, some ⟨[], 90000000⟩⟩ ∧
    getContactsE false
        ⟨90000000, .ok (some ⟨[⟨"1", "A", "a@x", none, none⟩], 0⟩), .ok "t",
          .notOk, .notOk, .notOk, .ok ()⟩ =
      .ok ⟨[], true, true, some ⟨[], 90000000⟩⟩ :=
  ⟨(getContacts_cache_ttl_behavior
      ⟨90000000, .ok (some ⟨[⟨"1", "A", "a@x", none, none⟩], 86400000⟩), .ok "t",
        .notOk, .notOk, .notOk, .ok ()⟩).1
      ⟨[⟨"1", "A", "a@x", none, none⟩], 86400000⟩ rfl (by decide),
    (getContacts_cache_ttl_behavior
      ⟨90000000, .ok none, .ok "t", .notOk, .notOk, .notOk, .ok ()⟩).2.1 "t" rfl rfl,
    (getContacts_cache_ttl_behavior
      ⟨90000000, .ok (some ⟨[⟨"1", "A", "a@x", none, none⟩], 0⟩), .ok "t",
        .notOk, .notOk, .notOk, .ok ()⟩).2.2.1
      ⟨[⟨"1", "A", "a@x", none, none⟩], 0⟩ "t" rfl (by decide) rfl rfl⟩

/-- C4 counterexample: the `chrome.storage.local.get` cache read of
`getContacts` happens before the try block, so when that read rejects (with
`forceRefresh = false`) the exception propagates to the caller instead of
degrading to an empty list. -/
theorem getContacts_cache_read_failure_propagates :
    getContactsE false
        ⟨0, .error "storage read rejected", .ok "tok", .notOk, .notOk, .notOk, .ok ()⟩ =
      .error "storage read rejected" := rfl

/-- C4 (amended): `getContacts` never propagates an exception for failures
of credential acquisition, network fetch, JSON parsing, malformed response
shape or the cache storage write — provided the cache storage read itself
does not throw (it runs outside the try block; `forceRefresh = true` skips
it) — and `searchContacts` never propagates an exception for any dependency
failure. -/
theorem getContacts_search_absorb_failures_amended (b : Bool) (env : GetEnv)
    (q : String) (senv : SearchEnv)
    (h : b = true ∨ ∃ v, env.cacheRead = .ok v) :
    (∃ out, getContactsE b env = .ok out) ∧
    ∃ sout, searchContactsE q senv = .ok sout := by
  constructor
  · rcases h with rfl | ⟨v, hv⟩
    · exact ⟨_, rfl⟩
    · cases b
      · rcases v with _ | cd
        · cases ht : env.tokenRes with
          | error err => exact ⟨⟨[], true, false, none⟩, by simp [getContactsE, hv, ht]⟩
          | ok tok =>
            cases hw : env.cacheWrite with
            | error err =>
              exact ⟨⟨[], true, true, none⟩, by simp [getContactsE, hv, ht, hw]⟩
            | ok u =>
              exact ⟨⟨fetchAllContacts env.connFetch env.otherFetch env.calFetch, true,
                true, some ⟨fetchAllContacts env.connFetch env.otherFetch env.calFetch,
                  env.now⟩⟩, by simp [getContactsE, hv, ht, hw]⟩
        · by_cases hts : env.now - cd.timestamp < CACHE_DURATION
          · exact ⟨⟨cd.data, false, false, none⟩, by simp [getContactsE, hv, hts]⟩
          · cases ht : env.tokenRes with
            | error err =>
              exact ⟨⟨[], true, false, none⟩, by simp [getContactsE, hv, hts, ht]⟩
            | ok tok =>
              cases hw : env.cacheWrite with
              | error err =>
                exact ⟨⟨[], true, true, none⟩, by simp [getContactsE, hv, hts, ht, hw]⟩
              | ok u =>
                exact ⟨⟨fetchAllContacts env.connFetch env.otherFetch env.calFetch, true,
                  true, some ⟨fetchAllContacts env.connFetch env.otherFetch env.calFetch,
                    env.now⟩⟩, by simp [getContactsE, hv, hts, ht, hw]⟩
      · exact ⟨_, rfl⟩
  · by_cases hq : q = "" ∨ q.length < 2
    · exact ⟨⟨[], false, false⟩, by simp [searchContactsE, hq]⟩
    · cases ht : senv.tokenRes with
      | error err => exact ⟨⟨[], true, false⟩, by simp [searchContactsE, hq, ht]⟩
      | ok tok =>
        cases hf : senv.searchFetch with
        | throw err => exact ⟨⟨[], true, true⟩, by simp [searchContactsE, hq, ht, hf]⟩
        | notOk => exact ⟨⟨[], true, true⟩, by simp [searchContactsE, hq, ht, hf]⟩
        | ok data =>
          cases hr : data.results with
          | none => exact ⟨⟨[], true, true⟩, by simp [searchContactsE, hq, ht, hf, hr]⟩
          | some rs =>
            exact ⟨⟨rs.filterMap personToContact, true, true⟩,
              by simp [searchContactsE, hq, ht, hf, hr]⟩

/-- Witness for C4 (amended) at an environment where the credential request,
every fetch and the search all fail. -/
theorem getContacts_search_absorb_failures_amended_witness :
    (∃ out,
      getContactsE true
          ⟨0, .ok none, .error "no silent credential", .throw "net down",
            .throw "net down", .throw "net down", .error "write failed"⟩ =
        .ok out) ∧
    ∃ sout, searchContactsE "al" ⟨.error "no silent credential", .throw "net down"⟩ =
      .ok sout :=
  getContacts_search_absorb_failures_amended true
    ⟨0, .ok none, .error "no silent credential", .throw "net down",
      .throw "net down", .throw "net down", .error "write failed"⟩
    "al" ⟨.error "no silent credential", .throw "net down"⟩ (Or.inl rfl)

/-- C5: each of the three source fetches is independently fault-tolerant:
a thrown error, a non-ok status or a missing list field on one source turns
only that source into `[]`, the other two enter the merge untouched, and on
the network path `getContacts` still returns the merged union of the
surviving sources. -/
theorem source_failure_isolation (connF otherF : FetchResult PeopleResponse)
    (calF : FetchResult CalendarResponse) (env : GetEnv) (tok : String) :
    (peopleFetchFailed connF false →
      fetchAllContacts connF otherF calF =
        mergeByPriority [] (fetchPeople otherF true) (fetchRecentAttendees calF)) ∧
    (peopleFetchFailed otherF true →
      fetchAllContacts connF otherF calF =
        mergeByPriority (fetchPeople connF false) [] (fetchRecentAttendees calF)) ∧
    (calendarFetchFailed calF →
      fetchAllContacts connF otherF calF =
        mergeByPriority (fetchPeople connF false) (fetchPeople otherF true) []) ∧
    (calendarFetchFailed env.calFetch → env.tokenRes = .ok tok → env.cacheWrite = .ok () →
      getContactsE true env =
        .ok ⟨mergeByPriority (fetchPeople env.connFetch false)
            (fetchPeople env.otherFetch true) [], true, true,
          some ⟨mergeByPriority (fetchPeople env.connFetch false)
            (fetchPeople env.otherFetch true) [], env.now⟩⟩) := by
  refine ⟨?_, ?_, ?_, ?_⟩
  · intro h
    rw [fetchAllContacts, fetchPeople_eq_nil connF false h]
  · intro h
    rw [fetchAllContacts, fetchPeople_eq_nil otherF true h]
  · intro h
    rw [fetchAllContacts, fetchRecentAttendees_eq_nil calF h]
  · intro h1 h2 h3
    have hcal := fetchRecentAttendees_eq_nil env.calFetch h1
    simp [getContactsE, h2, h3, fetchAllContacts, hcal]

/-- Witness for C5 with the connections fetch throwing, the other-contacts
fetch returning a non-ok status, and the calendar response missing `items`. -/
theorem source_failure_isolation_witness :
    (fetchAllContacts (.throw "net down") .notOk (.ok ⟨none⟩) =
      mergeByPriority [] (fetchPeople .notOk true) (fetchRecentAttendees (.ok ⟨none⟩))) ∧
    (fetchAllContacts (.throw "net down") .notOk (.ok ⟨none⟩) =
      mergeByPriority (fetchPeople (.throw "net down") false) []
        (fetchRecentAttendees (.ok ⟨none⟩))) ∧
    (fetchAllContacts (.throw "net down") .notOk (.ok ⟨none⟩) =
      mergeByPriority (fetchPeople (.throw "net down") false) (fetchPeople .notOk true)
        []) ∧
    getContactsE true ⟨7, .ok none, .ok "t", .throw "net down", .notOk, .ok ⟨none⟩, .ok ()⟩ =
      .ok ⟨mergeByPriority (fetchPeople (.throw "net down") false)
          (fetchPeople .notOk true) [], true, true,
        some ⟨mergeByPriority (fetchPeople (.throw "net down") false)
          (fetchPeople .notOk true) [], 7⟩⟩ :=
  ⟨(source_failure_isolation (.throw "net down") .notOk (.ok ⟨none⟩)
      ⟨7, .ok none, .ok "t", .throw "net down", .notOk, .ok ⟨none⟩, .ok ()⟩ "t").1 trivial,
    (source_failure_isolation (.throw "net down") .notOk (.ok ⟨none⟩)
      ⟨7, .ok none, .ok "t", .throw "net down", .notOk, .ok ⟨none⟩, .ok ()⟩ "t").2.1 trivial,
    (source_failure_isolation (.throw "net down") .notOk (.ok ⟨none⟩)
      ⟨7, .ok none, .ok "t", .throw "net down", .notOk, .ok ⟨none⟩, .ok ()⟩ "t").2.2.1 rfl,
    (source_failure_isolation (.throw "net down") .notOk (.ok ⟨none⟩)
      ⟨7, .ok none, .ok "t", .throw "net down", .notOk, .ok ⟨none⟩, .ok ()⟩ "t").2.2.2
      rfl rfl rfl⟩

/-- C10: on the network path with the credential obtained, total failure of
all three sources still counts as success: an empty list is persisted with
the current timestamp, and a later `getContacts(false)` within 24 hours
serves that empty list from cache with no credential request and no
fetches. -/
theorem total_source_failure_caches_empty (env env2 : GetEnv) (tok : String) (b : Bool)
    (h1 : env.tokenRes = .ok tok) (h2 : env.cacheWrite = .ok ())
    (h3 : peopleFetchFailed env.connFetch false)
    (h4 : peopleFetchFailed env.otherFetch true)
    (h5 : calendarFetchFailed env.calFetch)
    (h6 : b = true ∨ env.cacheRead = .ok none ∨
      ∃ cd, env.cacheRead = .ok (some cd) ∧ ¬ env.now - cd.timestamp < CACHE_DURATION)
    (h7 : env2.cacheRead = .ok (some ⟨[], env.now⟩))
    (h8 : env2.now - env.now < CACHE_DURATION) :
    getContactsE b env = .ok ⟨[], true, true, some ⟨[], env.now⟩⟩ ∧
    getContactsE false env2 = .ok ⟨[], false, false, none⟩ := by
  have hfetch : fetchAllContacts env.connFetch env.otherFetch env.calFetch = [] := by
    rw [fetchAllContacts, fetchPeople_eq_nil env.connFetch false h3,
      fetchPeople_eq_nil env.otherFetch true h4,
      fetchRecentAttendees_eq_nil env.calFetch h5]
    rfl
  constructor
  · rcases h6 with rfl | hcr | ⟨cd, hcr, hts⟩
    · simp [getContactsE, h1, h2, hfetch]
    · simp [getContactsE, h1, h2, hcr, hfetch]
    · cases b
      · simp [getContactsE, h1, h2, hcr, hts, hfetch]
      · simp [getContactsE, h1, h2, hfetch]
  · exact (getContacts_cache_ttl_behavior env2).1 ⟨[], env.now⟩ h7 h8

/-- Witness for C10: every source fails, the empty merge is cached at time
90000000, and a read one hour later is served from that cache. -/
theorem total_source_failure_caches_empty_witness :
    getContactsE true
        ⟨90000000, .ok none, .ok "t", .throw "net down", .notOk, .ok ⟨none⟩, .ok ()⟩ =
      .ok ⟨[], true, true, some ⟨[], 90000000⟩⟩ ∧
    getContactsE false
        ⟨93600000, .ok (some ⟨[], 90000000⟩), .ok "t", .notOk, .notOk, .notOk, .ok ()⟩ =
      .ok ⟨[], false, false, none⟩ :=
  total_source_failure_caches_empty
    ⟨90000000, .ok none, .ok "t", .throw "net down", .notOk, .ok ⟨none⟩, .ok ()⟩
    ⟨93600000, .ok (some ⟨[], 90000000⟩), .ok "t", .notOk, .notOk, .notOk, .ok ()⟩
    "t" true rfl rfl trivial trivial rfl (Or.inl rfl) rfl (by decide)

end Lanner

namespace Lanner

/-- C8: for every query shorter than 2 characters (the empty string
included), `searchContacts` returns an empty sequence immediately, with no
credential request and no network request. -/
theorem search_short_query_guard (q : String) (env : SearchEnv)
    (h : q.length < 2) :
    searchContactsE q env = .ok ⟨[], false, false⟩ := by
  unfold searchContactsE
  rw [if_pos (Or.inr h)]

/-- Witness for C8 at the one-character query used by the spec. -/
theorem search_short_query_guard_witness :
    "a".length < 2 ∧
    searchContactsE "a" ⟨.ok "t", .notOk⟩ = .ok ⟨[], false, false⟩ :=
  ⟨by decide, search_short_query_guard "a" ⟨.ok "t", .notOk⟩ (by decide)⟩

/-- C9: the caller-side merge of search results in `MentionList.tsx` is
purely additive: the combined list starts with every prior entry unchanged
and in order; everything after that prefix is a search result whose email no
prior entry claimed; and every search result with a fresh email is
represented in the combined list (duplicates by email are skipped, prior
entries are never discarded). -/
theorem mention_merge_additive (prev results : List Contact) :
    (mergeSearchResults prev results).take prev.length = prev ∧
    (∀ c ∈ (mergeSearchResults prev results).drop prev.length,
      c ∈ results ∧ c.email ∉ prev.map Contact.email) ∧
    (∀ r ∈ results, r.email ∉ prev.map Contact.email →
      ∃ c ∈ mergeSearchResults prev results, c.email = r.email) := by
  rcases foldl_insertIfAbsent_eq_append results prev with ⟨r, hr⟩
  refine ⟨?_, ?_, ?_⟩
  · rw [mergeSearchResults, hr]
    simp
  · intro c hc
    rw [mergeSearchResults] at hc
    exact drop_foldl_insertIfAbsent results prev c hc
  · intro r1 hr1 hmem
    have hin : r1.email ∈ (mergeSearchResults prev results).map Contact.email := by
      rw [mergeSearchResults]
      exact (mem_emails_foldl_insertIfAbsent results prev r1.email).mpr
        (Or.inr (List.mem_map.mpr ⟨r1, hr1, rfl⟩))
    rcases List.mem_map.mp hin with ⟨c, hc, hce⟩
    exact ⟨c, hc, hce⟩

/-- Witness for C9: the prior list already holds `a@x`, the results bring a
duplicate of `a@x` and a fresh `c@x`. -/
theorem mention_merge_additive_witness :
    (mergeSearchResults [⟨"1", "A", "a@x", none, none⟩]
        [⟨"2", "B", "a@x", none, none⟩, ⟨"3", "C", "c@x", none, none⟩]).take
        [(⟨"1", "A", "a@x", none, none⟩ : Contact)].length =
      [⟨"1", "A", "a@x", none, none⟩] ∧
    (∀ c ∈ (mergeSearchResults [⟨"1", "A", "a@x", none, none⟩]
        [⟨"2", "B", "a@x", none, none⟩, ⟨"3", "C", "c@x", none, none⟩]).drop
        [(⟨"1", "A", "a@x", none, none⟩ : Contact)].length,
      c ∈ [(⟨"2", "B", "a@x", none, none⟩ : Contact), ⟨"3", "C", "c@x", none, none⟩] ∧
        c.email ∉ [(⟨"1", "A", "a@x", none, none⟩ : Contact)].map Contact.email) ∧
    (∀ r ∈ [(⟨"2", "B", "a@x", none, none⟩ : Contact), ⟨"3", "C", "c@x", none, none⟩],
      r.email ∉ [(⟨"1", "A", "a@x", none, none⟩ : Contact)].map Contact.email →
      ∃ c ∈ mergeSearchResults [⟨"1", "A", "a@x", none, none⟩]
        [⟨"2", "B", "a@x", none, none⟩, ⟨"3", "C", "c@x", none, none⟩],
        c.email = r.email) :=
  mention_merge_additive [⟨"1", "A", "a@x", none, none⟩]
    [⟨"2", "B", "a@x", none, none⟩, ⟨"3", "C", "c@x", none, none⟩]

end Lanner

namespace Lanner

theorem recentAttendeesFromItems_eq_flat (items : List EventItem) :
    ∀ m : List Contact,
      items.foldl
        (fun m ev => match ev.attendees with
          | some atts => atts.foldl attendeeStep m
          | none => m) m =
      (items.flatMap fun ev => ev.attendees.getD []).foldl attendeeStep m := by
  induction items with
  | nil => intro m; simp
  | cons ev t ih =>
    intro m
    rw [List.foldl_cons, List.flatMap_cons, List.foldl_append, ih]
    cases hatt : ev.attendees with
    | none => simp [hatt]
    | some atts => simp [hatt]

theorem mem_foldl_attendeeStep (l : List Attendee) :
    ∀ (m : List Contact) (c : Contact), c ∈ l.foldl attendeeStep m →
      c ∈ m ∨ ∃ att ∈ l, ∃ e, att.email = some e ∧ e ≠ "" ∧ att.self = false ∧
        att.resource = false ∧ c = attendeeContact att e := by
  induction l with
  | nil => intro m c h; exact Or.inl h
  | cons att t ih =>
    intro m c h
    rw [List.foldl_cons] at h
    rcases ih (attendeeStep m att) c h with h1 | ⟨a, ha, e, he⟩
    · cases hm : att.email with
      | none =>
        simp only [attendeeStep, hm] at h1
        exact Or.inl h1
      | some e =>
        simp only [attendeeStep, hm] at h1
        by_cases hg : e ≠ "" ∧ att.self = false ∧ att.resource = false
        · rw [if_pos hg] at h1
          unfold insertIfAbsent at h1
          split at h1
          · exact Or.inl h1
          · rcases List.mem_append.mp h1 with h2 | h2
            · exact Or.inl h2
            · have hcc := List.mem_singleton.mp h2
              exact Or.inr ⟨att, List.mem_cons_self att t, e, hm, hg.1, hg.2.1, hg.2.2, hcc⟩
        · rw [if_neg hg] at h1
          exact Or.inl h1
    · exact Or.inr ⟨a, List.mem_cons_of_mem att ha, e, he⟩

theorem mem_emails_attendeeStep (m : List Contact) (att : Attendee) (e : String) :
    e ∈ (attendeeStep m att).map Contact.email ↔
      e ∈ m.map Contact.email ∨
        (att.email = some e ∧ e ≠ "" ∧ att.self = false ∧ att.resource = false) := by
  cases hm : att.email with
  | none => simp [attendeeStep, hm]
  | some e' =>
    simp only [attendeeStep, hm]
    by_cases hg : e' ≠ "" ∧ att.self = false ∧ att.resource = false
    · rw [if_pos hg, mem_emails_insertIfAbsent]
      have hctc : (attendeeContact att e').email = e' := rfl
      rw [hctc]
      constructor
      · rintro (h | rfl)
        · exact Or.inl h
        · exact Or.inr ⟨rfl, hg⟩
      · rintro (h | ⟨he, _⟩)
        · exact Or.inl h
        · rcases Option.some.inj he with rfl
          exact Or.inr rfl
    · rw [if_neg hg]
      constructor
      · exact fun h => Or.inl h
      · rintro (h | ⟨he, hrest⟩)
        · exact h
        · rcases Option.some.inj he with rfl
          exact absurd hrest hg

theorem mem_emails_foldl_attendeeStep (l : List Attendee) :
    ∀ (m : List Contact) (e : String),
      e ∈ (l.foldl attendeeStep m).map Contact.email ↔
        e ∈ m.map Contact.email ∨ ∃ att ∈ l, att.email = some e ∧ e ≠ "" ∧
          att.self = false ∧ att.resource = false := by
  induction l with
  | nil => intro m e; simp
  | cons att t ih =>
    intro m e
    rw [List.foldl_cons, ih (attendeeStep m att) e, mem_emails_attendeeStep]
    simp only [List.mem_cons]
    constructor
    · rintro ((h | h) | ⟨a, ha, hrest⟩)
      · exact Or.inl h
      · exact Or.inr ⟨att, Or.inl rfl, h⟩
      · exact Or.inr ⟨a, Or.inr ha, hrest⟩
    · rintro (h | ⟨a, ha | ha, hrest⟩)
      · exact Or.inl (Or.inl h)
      · exact Or.inl (Or.inr (ha ▸ hrest))
      · exact Or.inr ⟨a, ha, hrest⟩

/-- C7: a produced recent-attendee contact always comes from an attendee
entry that has a nonempty email and neither the `self` nor the `resource`
flag (so a flagged or email-less entry itself never becomes a contact), and
conversely every attendee entry with a nonempty email and neither flag is
represented in the produced list by a contact with its email. -/
theorem recent_attendees_attendee_filter (items : List EventItem) :
    (∀ c ∈ recentAttendeesFromItems items,
      ∃ ev ∈ items, ∃ att ∈ ev.attendees.getD [], ∃ e,
        att.email = some e ∧ e ≠ "" ∧ att.self = false ∧ att.resource = false ∧
        c = attendeeContact att e) ∧
    (∀ ev ∈ items, ∀ att ∈ ev.attendees.getD [], ∀ e, att.email = some e → e ≠ "" →
      att.self = false → att.resource = false →
      ∃ c ∈ recentAttendeesFromItems items, c.email = e) := by
  have hflat : recentAttendeesFromItems items =
      (items.flatMap fun ev => ev.attendees.getD []).foldl attendeeStep [] := by
    rw [recentAttendeesFromItems]
    exact recentAttendeesFromItems_eq_flat items []
  constructor
  · intro c hc
    rw [hflat] at hc
    rcases mem_foldl_attendeeStep _ [] c hc with h | ⟨att, hatt, e, h1, h2, h3, h4, h5⟩
    · simp at h
    · rcases List.mem_flatMap.mp hatt with ⟨ev, hev, hin⟩
      exact ⟨ev, hev, att, hin, e, h1, h2, h3, h4, h5⟩
  · intro ev hev att hatt e h1 h2 h3 h4
    have hmem : e ∈ (recentAttendeesFromItems items).map Contact.email := by
      rw [hflat]
      exact (mem_emails_foldl_attendeeStep _ [] e).mpr
        (Or.inr ⟨att, List.mem_flatMap.mpr ⟨ev, hev, hatt⟩, h1, h2, h3, h4⟩)
    rcases List.mem_map.mp hmem with ⟨c, hc, hce⟩
    exact ⟨c, hc, hce⟩

/-- Witness for C7: one event with a self-flagged attendee, a resource
attendee, an attendee with no email, and one plain attendee; only the plain
attendee is represented. -/
theorem recent_attendees_attendee_filter_witness :
    (∀ c ∈ recentAttendeesFromItems
        [⟨some [⟨some "me@x.com", none, true, false⟩,
                ⟨some "room@x.com", some "Room 1", false, true⟩,
                ⟨none, some "Ghost", false, false⟩,
                ⟨some "bob@x.com", some "Bob", false, false⟩]⟩],
      ∃ ev ∈ [(⟨some [⟨some "me@x.com", none, true, false⟩,
                ⟨some "room@x.com", some "Room 1", false, true⟩,
                ⟨none, some "Ghost", false, false⟩,
                ⟨some "bob@x.com", some "Bob", false, false⟩]⟩ : EventItem)],
        ∃ att ∈ ev.attendees.getD [], ∃ e,
          att.email = some e ∧ e ≠ "" ∧ att.self = false ∧ att.resource = false ∧
          c = attendeeContact att e) ∧
    (∀ ev ∈ [(⟨some [⟨some "me@x.com", none, true, false⟩,
                ⟨some "room@x.com", some "Room 1", false, true⟩,
                ⟨none, some "Ghost", false, false⟩,
                ⟨some "bob@x.com", some "Bob", false, false⟩]⟩ : EventItem)],
      ∀ att ∈ ev.attendees.getD [], ∀ e, att.email = some e → e ≠ "" →
        att.self = false → att.resource = false →
        ∃ c ∈ recentAttendeesFromItems
          [⟨some [⟨some "me@x.com", none, true, false⟩,
                  ⟨some "room@x.com", some "Room 1", false, true⟩,
                  ⟨none, some "Ghost", false, false⟩,
                  ⟨some "bob@x.com", some "Bob", false, false⟩]⟩],
          c.email = e) :=
  recent_attendees_attendee_filter
    [⟨some [⟨some "me@x.com", none, true, false⟩,
            ⟨some "room@x.com", some "Room 1", false, true⟩,
            ⟨none, some "Ghost", false, false⟩,
            ⟨some "bob@x.com", some "Bob", false, false⟩]⟩]

end Lanner

namespace Lanner

/-- C6 counterexample: an attendee with email `bob@x.com` and no display
name yields a contact named `"bob"` — the part of the email before `'@'` —
which is neither the full email string (the claimed first fallback) nor the
literal `"Unknown"` (the claimed last fallback). -/
theorem attendee_name_fallback_counterexample :
    recentAttendeesFromItems [⟨some [⟨some "bob@x.com", none, false, false⟩]⟩] =
      [⟨"bob@x.com", "bob", "bob@x.com", none, none⟩] ∧
    "bob" ≠ "bob@x.com" ∧ "bob" ≠ "Unknown" :=
  ⟨by decide, by decide, by decide⟩

/-- C6 (amended): the shared mapping rule holds verbatim for the two People
API bulk sources and the search path (the per-entry mapping equals the
spec's rule); for the recent-attendees source, id, email and the absent
photo follow the rule, but the name falls back to the part of the attendee
email before the first `'@'` rather than the full email string or
`"Unknown"`. -/
theorem shared_mapping_rule_amended (item : PersonItem) (att : Attendee) (e : String)
    (h1 : att.email = some e) (h2 : e ≠ "") (h3 : att.self = false)
    (h4 : att.resource = false) :
    personToContact item = specMapContact item ∧
    recentAttendeesFromItems [⟨some [att]⟩] =
      [⟨e,
        match strTruthy att.displayName with
        | some n => n
        | none => localPart e,
        e, none, none⟩] := by
  constructor
  · unfold personToContact specMapContact
    cases hE : optHead item.emailAddresses with
    | none => simp [strTruthy]
    | some ev =>
      by_cases he : ev = ""
      · simp [strTruthy, he]
      · cases hN : strTruthy (optHead item.names) with
        | none => simp [strTruthy, he, hN]
        | some n => simp [strTruthy, he, hN]
  · have hguard : e ≠ "" ∧ att.self = false ∧ att.resource = false := ⟨h2, h3, h4⟩
    simp [recentAttendeesFromItems, attendeeStep, h1, hguard, insertIfAbsent,
      hasEmail, attendeeContact]

/-- Witness for C6 (amended) at a search-path style item with only an email,
and an attendee with a display name. -/
theorem shared_mapping_rule_amended_witness :
    (personToContact ⟨none, none, some [some "alice@x.com"], none⟩ =
        specMapContact ⟨none, none, some [some "alice@x.com"], none⟩ ∧
      recentAttendeesFromItems [⟨some [⟨some "bob@x.com", some "Bob", false, false⟩]⟩] =
        [⟨"bob@x.com",
          match strTruthy (some "Bob") with
          | some n => n
          | none => localPart "bob@x.com",
          "bob@x.com", none, none⟩]) :=
  shared_mapping_rule_amended ⟨none, none, some [some "alice@x.com"], none⟩
    ⟨some "bob@x.com", some "Bob", false, false⟩ "bob@x.com" rfl (by decide) rfl rfl

end Lanner
